import Mathlib

/-!
Verification of the barbershop booking backend (src/main.py).

This file gives a shallow embedding of the two core components of the
backend — the in-memory sliding-window rate limiter (`check_rate_limit`)
and the appointment-request validation pipeline (`AppointmentRequest`
plus the extra validations performed by the `create_appointment` route) —
and proves or refutes the specification claims about them.

Modelling conventions:
* Instants (`datetime.utcnow()` values, stored timestamps, combined
  appointment instants) are integers counting microseconds, matching the
  microsecond resolution of Python `datetime` arithmetic.
* The per-client history list of the limiter is a `List Int`; each call of
  `check_rate_limit` is a pure function from the current instant and the
  stored history to the admit/reject outcome and the persisted history.
* Fallible validation steps return `Except`; the pydantic model-level
  validation aggregates the failures of the individual fields exactly the
  way pydantic v2 does (every field is checked, all failures collected in
  field-declaration order).
-/

/-! Rate limiter (src/main.py lines 30–53). -/

def RATE_LIMIT_WINDOW_SHORT : Int := 15 * 1000000

def RATE_LIMIT_MAX_SHORT : Nat := 1

def RATE_LIMIT_WINDOW_LONG : Int := 5 * 60 * 1000000

def RATE_LIMIT_MAX_LONG : Nat := 5

/-- Pruning step (line 41): keep exactly the timestamps `t` with
`now - t <= RATE_LIMIT_WINDOW_LONG`. -/
def prune (now : Int) (history : List Int) : List Int :=
  history.filter fun t => decide (now - t ≤ RATE_LIMIT_WINDOW_LONG)

/-- `check_rate_limit` (lines 37–53), for a single client.  The dictionary
lookup / store is modelled by passing the client's stored history in and
returning the persisted history; the function returns `true` when the
request is admitted and `false` when it raises the 429 rate-limit error.
The pruned history is persisted in both cases (line 42), and `now` is
appended only on admission (lines 52–53). -/
def check_rate_limit (now : Int) (history : List Int) : Bool × List Int :=
  if RATE_LIMIT_MAX_SHORT ≤
      ((prune now history).filter fun t =>
        decide (now - t ≤ RATE_LIMIT_WINDOW_SHORT)).length
     ∨ RATE_LIMIT_MAX_LONG ≤ (prune now history).length then
    (false, prune now history)
  else
    (true, prune now history ++ [now])

/-- Run a sequence of requests (their `now` instants) of one client through
the limiter, starting from stored history `h`; returns the list of
admit/reject outcomes and the final stored history. -/
def runFrom : List Int → List Int → List Bool × List Int
  | h, [] => ([], h)
  | h, t :: ts =>
    let r := check_rate_limit t h
    let rest := runFrom r.2 ts
    (r.1 :: rest.1, rest.2)

/-! Validation pipeline (src/main.py lines 59–119 and 174–185). -/

/-- Error taxonomy of the validator, following section 7 of the spec. -/
inductive VErr where
  | MissingField (field : String)
  | InvalidName
  | InvalidPhone
  | InvalidEmail
  | InvalidService
  | InvalidDate
  | InvalidTime
  | PastDateTime
  | CaptchaFailed
  deriving DecidableEq, Repr

deriving instance DecidableEq for Except

/-- Python whitespace characters, as removed by str.strip and counted by
str.isspace: space, tab, newline, carriage return, vertical tab, form feed. -/
def isPySpace (c : Char) : Bool :=
  c = ' ' || c = '\t' || c = '\n' || c = '\r' || c = '\x0b' || c = '\x0c'

/-- Python str.strip(): drop leading and trailing whitespace. -/
def pyStrip (s : String) : String :=
  String.mk (((s.toList.dropWhile isPySpace).reverse.dropWhile isPySpace).reverse)

/-- Python str.replace of a single space by the empty string: remove every
space character (only U+0020, not other whitespace). -/
def removeSpaces (s : String) : String :=
  String.mk (s.toList.filter fun c => c != ' ')

/-- Python str.lower on the ASCII service names. -/
def toLowerStr (s : String) : String :=
  String.mk (s.toList.map Char.toLower)

/-- The language of PHONE_REGEX (line 60): an optional leading plus sign
followed by 8 to 15 digits and nothing else. -/
def phoneMatches (s : String) : Bool :=
  let digs := match s.toList with
    | '+' :: rest => rest
    | l => l
  decide (8 ≤ digs.length) && decide (digs.length ≤ 15) && digs.all Char.isDigit

/-- Follows the words of claim C6 ("the phone check first strips internal
whitespace"): remove every whitespace character of the string.  This is the
claim's normalization, stated for comparison with the code's normalization
removeSpaces (pyStrip s); the two differ, see the C6 counterexample. -/
def specStripAllWhitespace (s : String) : String :=
  String.mk (s.toList.filter fun c => !isPySpace c)

/-- Split a character list at every occurrence of the separator (the list
analogue of Python str.split on a one-character separator). -/
def splitOnChar (sep : Char) : List Char → List (List Char)
  | [] => [[]]
  | c :: cs =>
    match splitOnChar sep cs with
    | [] => if c = sep then [[], []] else [[c]]
    | w :: ws => if c = sep then [] :: w :: ws else (c :: w) :: ws

/-- Numeric value of a list of decimal digit characters. -/
def natOfDigits (l : List Char) : Nat :=
  l.foldl (fun a c => a * 10 + (c.toNat - 48)) 0

/-- Gregorian leap-year rule, as in Python's datetime. -/
def isLeapYear (y : Nat) : Bool :=
  y % 4 == 0 && (y % 100 != 0 || y % 400 == 0)

/-- Length of a month, as enforced by Python's datetime constructor. -/
def daysInMonth (y m : Nat) : Nat :=
  if m == 2 then (if isLeapYear y then 29 else 28)
  else if m == 4 || m == 6 || m == 9 || m == 11 then 30
  else 31

/-- Date parsing as performed by datetime.strptime with format "%Y-%m-%d"
(lines 91–98): exactly four digits of year, one or two digits of month
(value 1–12), one or two digits of day, full-string match; Python's
datetime constructor additionally bounds the day by the month length and
rejects year 0. -/
def parseDate (s : String) : Option (Nat × Nat × Nat) :=
  match splitOnChar '-' s.toList with
  | [ys, ms, ds] =>
    if ys.length == 4 && ys.all Char.isDigit
        && decide (1 ≤ ms.length) && decide (ms.length ≤ 2) && ms.all Char.isDigit
        && decide (1 ≤ ds.length) && decide (ds.length ≤ 2) && ds.all Char.isDigit then
      let y := natOfDigits ys
      let m := natOfDigits ms
      let d := natOfDigits ds
      if decide (1 ≤ y) && decide (1 ≤ m) && decide (m ≤ 12)
          && decide (1 ≤ d) && decide (d ≤ daysInMonth y m) then
        some (y, m, d)
      else none
    else none
  | _ => none

/-- Time parsing as performed by datetime.strptime with format "%H:%M"
(lines 100–107): one or two digits of hour (value 0–23), one or two digits
of minute (value 0–59), full-string match. -/
def parseTime (s : String) : Option (Nat × Nat) :=
  match splitOnChar ':' s.toList with
  | [hs, ms] =>
    if decide (1 ≤ hs.length) && decide (hs.length ≤ 2) && hs.all Char.isDigit
        && decide (1 ≤ ms.length) && decide (ms.length ≤ 2) && ms.all Char.isDigit then
      let h := natOfDigits hs
      let mi := natOfDigits ms
      if decide (h ≤ 23) && decide (mi ≤ 59) then some (h, mi) else none
    else none
  | _ => none

/-- Days of the proleptic Gregorian calendar before year y, as in Python's
date.toordinal arithmetic. -/
def daysBeforeYear (y : Nat) : Nat :=
  (y - 1) * 365 + (y - 1) / 4 - (y - 1) / 100 + (y - 1) / 400

/-- Days before month m inside year y. -/
def daysBeforeMonth (y m : Nat) : Nat :=
  (List.range (m - 1)).foldl (fun a i => a + daysInMonth y (i + 1)) 0

/-- Microseconds from the start of year 1 to the given date and time, the
instant a Python datetime with zero seconds and microseconds denotes. -/
def toInstant (y m d hh mi : Nat) : Int :=
  ((((((daysBeforeYear y + daysBeforeMonth y m + (d - 1)) * 24 + hh) * 60 + mi)
      * 60 * 1000000 : Nat) : Int))

/-- A result of pydantic's validation of AppointmentRequest: all fields
present and individually valid, with the per-field normalizations applied
(date and time kept in parsed form). -/
structure AppointmentModel where
  full_name : String
  phone : String
  email : Option String
  service : String
  date : Nat × Nat × Nat
  time : Nat × Nat
  message : Option String
  captcha_a : Int
  captcha_b : Int
  captcha_result : Int
  deriving DecidableEq, Repr

/-- The untrusted wire payload: for every field of AppointmentRequest,
either a value of the right primitive shape or structural absence. -/
structure RawPayload where
  full_name : Option String
  phone : Option String
  email : Option String
  service : Option String
  date : Option String
  time : Option String
  message : Option String
  captcha_a : Option Int
  captcha_b : Option Int
  captcha_result : Option Int

/-- Check of full_name, Field(min_length=2) on line 64: the raw string
must have at least two characters (pydantic applies no trimming here);
a missing required field is a structural error. -/
def checkName (v : Option String) : Except VErr String :=
  match v with
  | none => .error (.MissingField "full_name")
  | some s => if 2 ≤ s.length then .ok s else .error .InvalidName

/-- validate_phone (lines 75–81): strip outer whitespace, remove the space
characters, then the value must match PHONE_REGEX; the normalized value is
retained. -/
def validate_phone (v : String) : Except VErr String :=
  if phoneMatches (removeSpaces (pyStrip v)) then .ok (removeSpaces (pyStrip v))
  else .error .InvalidPhone

def checkPhone (v : Option String) : Except VErr String :=
  match v with
  | none => .error (.MissingField "phone")
  | some s => validate_phone s

/-- Modelled from the spec: the EmailStr validation lives in the
pydantic/email-validator library, not in this repository; the spec
describes it as "standard local-part at-sign domain form with a dot in
the domain". -/
def emailValid (s : String) : Bool :=
  match splitOnChar '@' s.toList with
  | [l, d] => !l.isEmpty && !d.isEmpty && d.contains '.'
  | _ => false

def checkEmail (v : Option String) : Except VErr (Option String) :=
  match v with
  | none => .ok none
  | some s => if emailValid s then .ok (some s) else .error .InvalidEmail

def ALLOWED_SERVICES : List String := ["tuns", "aranjat barba", "pachet complet"]

/-- validate_service (lines 83–89): trim, lower-case, and require
membership of ALLOWED_SERVICES; the normalized value is retained. -/
def validate_service (v : String) : Except VErr String :=
  if ALLOWED_SERVICES.contains (toLowerStr (pyStrip v)) then
    .ok (toLowerStr (pyStrip v))
  else .error .InvalidService

def checkService (v : Option String) : Except VErr String :=
  match v with
  | none => .error (.MissingField "service")
  | some s => validate_service s

def checkDate (v : Option String) : Except VErr (Nat × Nat × Nat) :=
  match v with
  | none => .error (.MissingField "date")
  | some s =>
    match parseDate s with
    | some ymd => .ok ymd
    | none => .error .InvalidDate

def checkTime (v : Option String) : Except VErr (Nat × Nat) :=
  match v with
  | none => .error (.MissingField "time")
  | some s =>
    match parseTime s with
    | some hm => .ok hm
    | none => .error .InvalidTime

/-- A required integer field: only structural absence can fail. -/
def checkIntField (fname : String) (v : Option Int) : Except VErr Int :=
  match v with
  | none => .error (.MissingField fname)
  | some n => .ok n

/-- One step of pydantic's field loop: validate the next field, extending
the partially applied constructor on success and appending the field's
failure to the collected error list otherwise. -/
def collect {α β : Type} (acc : Except (List VErr) (α → β)) (r : Except VErr α) :
    Except (List VErr) β :=
  match acc, r with
  | .ok f, .ok a => .ok (f a)
  | .ok _, .error e => .error [e]
  | .error es, .ok _ => .error es
  | .error es, .error e => .error (es ++ [e])

def errsOf {α : Type} (e : Except VErr α) : List VErr :=
  match e with
  | .ok _ => []
  | .error x => [x]

def errsAcc {α : Type} (e : Except (List VErr) α) : List VErr :=
  match e with
  | .ok _ => []
  | .error es => es

/-- pydantic model validation of AppointmentRequest (lines 63–107): every
field is checked independently, in declaration order; when any fail, the
whole validation fails with the list of all field failures in that order
(pydantic v2 collects every error rather than stopping at the first). -/
def modelValidate (p : RawPayload) : Except (List VErr) AppointmentModel :=
  collect (collect (collect (collect (collect (collect (collect (collect (collect (collect
    (.ok AppointmentModel.mk)
    (checkName p.full_name))
    (checkPhone p.phone))
    (checkEmail p.email))
    (checkService p.service))
    (checkDate p.date))
    (checkTime p.time))
    (.ok p.message))
    (checkIntField "captcha_a" p.captcha_a))
    (checkIntField "captcha_b" p.captcha_b))
    (checkIntField "captcha_result" p.captcha_result)

/-- The field-level failures of a payload, in pydantic's field-declaration
order. -/
def fieldErrors (p : RawPayload) : List VErr :=
  errsOf (checkName p.full_name) ++ errsOf (checkPhone p.phone) ++
  errsOf (checkEmail p.email) ++ errsOf (checkService p.service) ++
  errsOf (checkDate p.date) ++ errsOf (checkTime p.time) ++
  errsOf (checkIntField "captcha_a" p.captcha_a) ++
  errsOf (checkIntField "captcha_b" p.captcha_b) ++
  errsOf (checkIntField "captcha_result" p.captcha_result)

/-- combined_datetime (lines 109–111) of a validated model, as an instant. -/
def combined_datetime (m : AppointmentModel) : Int :=
  toInstant m.date.1 m.date.2.1 m.date.2.2 m.time.1 m.time.2

/-- validate_future (lines 113–115): the combined instant must be strictly
later than the current instant, otherwise the PastDateTime failure. -/
def validate_future (m : AppointmentModel) (now : Int) : Except VErr Unit :=
  if combined_datetime m ≤ now then .error .PastDateTime else .ok ()

/-- validate_captcha (lines 117–119): the two addends must sum exactly to
the claimed result. -/
def validate_captcha (a b r : Int) : Except VErr Unit :=
  if a + b ≠ r then .error .CaptchaFailed else .ok ()

/-- Validation as sequenced by the create_appointment route (lines 174–185):
pydantic model validation of the payload first (all field failures reported
together in the 422 response), then validate_future, then validate_captcha,
the two cross-field checks stopping at the first failure (400 response with
a single message). -/
def processAppointment (p : RawPayload) (now : Int) :
    Except (List VErr) AppointmentModel :=
  match modelValidate p with
  | .error es => .error es
  | .ok m =>
    match validate_future m now with
    | .error e => .error [e]
    | .ok _ =>
      match validate_captcha m.captcha_a m.captcha_b m.captcha_result with
      | .error e => .error [e]
      | .ok _ => .ok m

/-- A payload with an invalid full_name and a structurally missing phone,
all other fields valid. -/
def twoBadFieldsPayload : RawPayload :=
  ⟨some "A", none, none, some "tuns", some "2030-01-05", some "14:30",
   none, some 2, some 3, some 5⟩

/-- A fully valid payload (the end-to-end example of spec section 8). -/
def validPayload : RawPayload :=
  ⟨some "Ion Popescu", some "0712345678", none, some "Tuns", some "2030-01-05",
   some "14:30", none, some 2, some 2, some 4⟩

/-- The validated model produced from validPayload. -/
def validModel : AppointmentModel :=
  ⟨"Ion Popescu", "0712345678", none, "tuns", (2030, 1, 5), (14, 30), none, 2, 2, 4⟩

/-- The requests falling in the rolling 5-minute window starting at x. -/
def windowPred (x : Int) : Int → Bool :=
  fun t => decide (x ≤ t ∧ t ≤ x + RATE_LIMIT_WINDOW_LONG)

/-! Helper lemmas about the rate limiter. -/

theorem mem_prune {now t : Int} {h : List Int} :
    t ∈ prune now h ↔ t ∈ h ∧ now - t ≤ RATE_LIMIT_WINDOW_LONG := by
  simp [prune, List.mem_filter]

theorem prune_sublist (now : Int) (h : List Int) : (prune now h).Sublist h :=
  List.filter_sublist h

theorem check_rate_limit_reject (now : Int) (h : List Int)
    (hc : 1 ≤ ((prune now h).filter fun t =>
            decide (now - t ≤ RATE_LIMIT_WINDOW_SHORT)).length
          ∨ 5 ≤ (prune now h).length) :
    check_rate_limit now h = (false, prune now h) := by
  unfold check_rate_limit RATE_LIMIT_MAX_SHORT RATE_LIMIT_MAX_LONG
  rw [if_pos hc]

theorem check_rate_limit_accepts (now : Int) (h : List Int)
    (hc : ¬(1 ≤ ((prune now h).filter fun t =>
            decide (now - t ≤ RATE_LIMIT_WINDOW_SHORT)).length
          ∨ 5 ≤ (prune now h).length)) :
    check_rate_limit now h = (true, prune now h ++ [now]) := by
  unfold check_rate_limit RATE_LIMIT_MAX_SHORT RATE_LIMIT_MAX_LONG
  rw [if_neg hc]

theorem check_rate_limit_cases (now : Int) (h : List Int) :
    (1 ≤ ((prune now h).filter fun t =>
        decide (now - t ≤ RATE_LIMIT_WINDOW_SHORT)).length
      ∨ 5 ≤ (prune now h).length) ∧ check_rate_limit now h = (false, prune now h)
    ∨ ¬(1 ≤ ((prune now h).filter fun t =>
        decide (now - t ≤ RATE_LIMIT_WINDOW_SHORT)).length
      ∨ 5 ≤ (prune now h).length) ∧ check_rate_limit now h = (true, prune now h ++ [now]) := by
  unfold check_rate_limit RATE_LIMIT_MAX_SHORT RATE_LIMIT_MAX_LONG
  split
  next hc => exact Or.inl ⟨hc, rfl⟩
  next hc => exact Or.inr ⟨hc, rfl⟩

theorem runFrom_cons (h : List Int) (t : Int) (ts : List Int) :
    runFrom h (t :: ts) =
      ((check_rate_limit t h).1 :: (runFrom (check_rate_limit t h).2 ts).1,
        (runFrom (check_rate_limit t h).2 ts).2) := rfl

theorem runFrom_append (h : List Int) (ts us : List Int) :
    runFrom h (ts ++ us) =
      ((runFrom h ts).1 ++ (runFrom (runFrom h ts).2 us).1,
        (runFrom (runFrom h ts).2 us).2) := by
  induction ts generalizing h with
  | nil => simp [runFrom]
  | cons t ts ih => simp [runFrom_cons, ih]

theorem runFrom_singleton (h : List Int) (now : Int) :
    runFrom h [now] = ([(check_rate_limit now h).1], (check_rate_limit now h).2) := rfl

/-- C1 (amended): for every current instant and stored history, the limiter
rejects iff, after pruning, the count of retained timestamps within the
last 15 seconds is at least 1 or the count of all retained timestamps is at
least 5; in particular any request arriving within 15 seconds of an
admitted request is rejected, and a fresh client issuing 6 requests spread
evenly across 5 minutes (60 s apart) has its 6th rejected. -/
theorem claim_C1_rate_limit_decision :
    (∀ (now : Int) (h : List Int),
      (check_rate_limit now h).1 = false ↔
        1 ≤ (prune now h).countP (fun t => decide (now - RATE_LIMIT_WINDOW_SHORT ≤ t))
        ∨ 5 ≤ (prune now h).length)
    ∧ (∀ (h : List Int) (t0 t1 : Int),
        (check_rate_limit t0 h).1 = true →
        0 ≤ t1 - t0 → t1 - t0 ≤ RATE_LIMIT_WINDOW_SHORT →
        (check_rate_limit t1 (check_rate_limit t0 h).2).1 = false)
    ∧ (runFrom [] [0, 60000000, 120000000, 180000000, 240000000, 300000000]).1
        = [true, true, true, true, true, false] := by
  have hcnt : ∀ (now : Int) (l : List Int),
      l.countP (fun t => decide (now - RATE_LIMIT_WINDOW_SHORT ≤ t)) =
        (l.filter fun t => decide (now - t ≤ RATE_LIMIT_WINDOW_SHORT)).length := by
    intro now l
    rw [← List.countP_eq_length_filter]
    apply List.countP_congr
    intro a _
    simp only [decide_eq_true_eq]
    omega
  refine ⟨?_, ?_, by decide⟩
  · intro now h
    rw [hcnt]
    rcases check_rate_limit_cases now h with ⟨hc, he⟩ | ⟨hc, he⟩ <;> rw [he]
    · exact iff_of_true rfl hc
    · exact iff_of_false (by simp) hc
  · intro h t0 t1 hadm h0 h1
    have hsnd : (check_rate_limit t0 h).2 = prune t0 h ++ [t0] := by
      rcases check_rate_limit_cases t0 h with ⟨_, he⟩ | ⟨_, he⟩
      · rw [he] at hadm; simp at hadm
      · rw [he]
    rw [hsnd]
    have hmem : t0 ∈ prune t1 (prune t0 h ++ [t0]) := by
      rw [mem_prune]
      refine ⟨List.mem_append_right _ (List.mem_singleton.mpr rfl), ?_⟩
      simp only [RATE_LIMIT_WINDOW_SHORT, RATE_LIMIT_WINDOW_LONG] at h1 ⊢
      omega
    have hfil : t0 ∈ (prune t1 (prune t0 h ++ [t0])).filter
        fun t => decide (t1 - t ≤ RATE_LIMIT_WINDOW_SHORT) := by
      rw [List.mem_filter]
      exact ⟨hmem, by simpa using h1⟩
    have hlen := List.length_pos_of_mem hfil
    rw [check_rate_limit_reject _ _ (Or.inl (by omega))]

/-- C1 counterexample: a fully reachable trace in which two requests of the
same client lie 10 seconds apart and the second is admitted — the first of
the pair was itself rejected (over the long window), so its timestamp was
never recorded.  This falsifies the claim's unconditional "for any client
issuing 2 requests within 15 seconds the second is rejected". -/
theorem claim_C1_counterexample :
    (runFrom [] [0, 16000000, 32000000, 48000000, 64000000, 300000000, 310000000]).1
      = [true, true, true, true, true, false, true]
    ∧ ((310000000 : Int) - 300000000 ≤ RATE_LIMIT_WINDOW_SHORT) := by
  exact ⟨by decide, by decide⟩

/-- Witness for claim C1: a fresh client admitted at instant 0 is rejected
10 seconds later. -/
theorem claim_C1_witness :
    (check_rate_limit 10000000 (check_rate_limit 0 []).2).1 = false :=
  claim_C1_rate_limit_decision.2.1 [] 0 10000000 (by decide) (by decide) (by decide)

/-- C2 (amended): a rejected call appends nothing — the persisted history
is exactly the pruned prior history, so it contains a timestamp equal to
that call's now only if the prior history already did; a run of rejected
calls therefore adds no timestamps at all, and a client whose stored
timestamps all date from no later than its last admitted request is
admitted again once more than the long window has passed since then. -/
theorem claim_C2_rejected_not_recorded :
    (∀ (now : Int) (h : List Int), (check_rate_limit now h).1 = false →
      (check_rate_limit now h).2 = prune now h)
    ∧ (∀ (ts h : List Int), (∀ b ∈ (runFrom h ts).1, b = false) →
      ∀ t ∈ (runFrom h ts).2, t ∈ h)
    ∧ (∀ (h : List Int) (ta now : Int), (∀ t ∈ h, t ≤ ta) →
      RATE_LIMIT_WINDOW_LONG < now - ta →
      check_rate_limit now h = (true, [now])) := by
  have hrej : ∀ (now : Int) (h : List Int), (check_rate_limit now h).1 = false →
      (check_rate_limit now h).2 = prune now h := by
    intro now h hr
    rcases check_rate_limit_cases now h with ⟨_, he⟩ | ⟨_, he⟩
    · rw [he]
    · rw [he] at hr; simp at hr
  refine ⟨hrej, ?_, ?_⟩
  · intro ts
    induction ts with
    | nil => intro h _ t ht; exact ht
    | cons u ts ih =>
      intro h hb t ht
      rw [runFrom_cons] at hb ht
      have hu : (check_rate_limit u h).1 = false :=
        hb _ (List.mem_cons_self _ _)
      have hrest : ∀ b ∈ (runFrom (check_rate_limit u h).2 ts).1, b = false := by
        intro b hbm
        exact hb b (List.mem_cons_of_mem _ hbm)
      have ht2 := ih (check_rate_limit u h).2 hrest t ht
      rw [hrej u h hu] at ht2
      exact (mem_prune.mp ht2).1
  · intro h ta now hle hgap
    have hp : prune now h = [] := by
      rw [prune, List.filter_eq_nil_iff]
      intro a ha
      have := hle a ha
      simp only [decide_eq_true_eq]
      simp only [RATE_LIMIT_WINDOW_LONG] at hgap ⊢
      omega
    rw [check_rate_limit_accepts]
    · rw [hp]; rfl
    · rw [hp]; simp

/-- C2 counterexample: two calls of a fresh client at the same instant (two
requests in the same microsecond, as utcnow can deliver): the second call
is rejected, yet the stored history afterwards does contain a timestamp
equal to that call's now — recorded by the first, admitted, call. -/
theorem claim_C2_counterexample :
    (runFrom [] [0, 0]).1 = [true, false]
    ∧ (0 : Int) ∈ (runFrom [] [0, 0]).2 := by
  exact ⟨by decide, by decide⟩

/-- Witness for claim C2: a rejected call persists the pruned history; a
run of rejected calls adds nothing; full recovery after the long window. -/
theorem claim_C2_witness :
    (check_rate_limit 0 [0]).2 = prune 0 [0]
    ∧ (5 : Int) ∈ [(5 : Int)]
    ∧ check_rate_limit 301000000 [0] = (true, [301000000]) :=
  ⟨claim_C2_rejected_not_recorded.1 0 [0] (by decide),
   claim_C2_rejected_not_recorded.2.1 [5, 5] [5] (by decide) 5 (by decide),
   claim_C2_rejected_not_recorded.2.2 [0] 0 301000000 (by decide) (by decide)⟩

/-- C10 (confirmed): both window comparisons are boundary-inclusive.  A
request arriving exactly 15 seconds after a fresh client's sole admitted
request is rejected; a timestamp exactly 5 minutes old survives pruning,
and it is what pushes the long count to the threshold: the same call with
that timestamp absent is admitted. -/
theorem claim_C10_boundaries :
    (∀ t : Int, check_rate_limit t [] = (true, [t])
      ∧ (check_rate_limit (t + RATE_LIMIT_WINDOW_SHORT) [t]).1 = false)
    ∧ (∀ now : Int,
        prune now [now - RATE_LIMIT_WINDOW_LONG] = [now - RATE_LIMIT_WINDOW_LONG])
    ∧ check_rate_limit 300000000 [0, 60000000, 120000000, 180000000, 240000000]
        = (false, [0, 60000000, 120000000, 180000000, 240000000])
    ∧ check_rate_limit 300000000 [60000000, 120000000, 180000000, 240000000]
        = (true, [60000000, 120000000, 180000000, 240000000, 300000000]) := by
  refine ⟨?_, ?_, by decide, by decide⟩
  · intro t
    constructor
    · rw [check_rate_limit_accepts]
      · simp [prune]
      · simp [prune]
    · have hmem : t ∈ prune (t + RATE_LIMIT_WINDOW_SHORT) [t] := by
        rw [mem_prune]
        refine ⟨List.mem_singleton.mpr rfl, ?_⟩
        simp only [RATE_LIMIT_WINDOW_SHORT, RATE_LIMIT_WINDOW_LONG]
        omega
      have hfil : t ∈ (prune (t + RATE_LIMIT_WINDOW_SHORT) [t]).filter
          fun x => decide (t + RATE_LIMIT_WINDOW_SHORT - x ≤ RATE_LIMIT_WINDOW_SHORT) := by
        rw [List.mem_filter]
        refine ⟨hmem, ?_⟩
        simp only [decide_eq_true_eq]
        omega
      have hlen := List.length_pos_of_mem hfil
      rw [check_rate_limit_reject _ _ (Or.inl (by omega))]
  · intro now
    rw [prune, List.filter_eq_self]
    intro a ha
    rw [List.mem_singleton] at ha
    subst ha
    simp only [decide_eq_true_eq]
    omega

theorem gap_chain_rel (a : Int) (l : List Int)
    (hc : List.Chain (fun x y => x + RATE_LIMIT_WINDOW_SHORT < y) a l) :
    ∀ b ∈ l, a + RATE_LIMIT_WINDOW_SHORT < b := by
  induction l generalizing a with
  | nil => intro b hb; cases hb
  | cons c l ih =>
    rw [List.chain_cons] at hc
    intro b hb
    rcases List.mem_cons.mp hb with rfl | hb
    · exact hc.1
    · have h1 := ih c hc.2 b hb
      have h2 := hc.1
      simp only [RATE_LIMIT_WINDOW_SHORT] at *
      omega

theorem gap_chain_pairwise (a : Int) (l : List Int)
    (hc : List.Chain (fun x y => x + RATE_LIMIT_WINDOW_SHORT < y) a l) :
    List.Pairwise (fun x y => x + RATE_LIMIT_WINDOW_SHORT < y) (a :: l) := by
  induction l generalizing a with
  | nil => simp
  | cons c l ih =>
    rw [List.chain_cons] at hc
    refine List.Pairwise.cons ?_ (ih c hc.2)
    intro b hb
    rcases List.mem_cons.mp hb with rfl | hb
    · exact hc.1
    · have h1 := gap_chain_rel c l hc.2 b hb
      have h2 := hc.1
      simp only [RATE_LIMIT_WINDOW_SHORT] at *
      omega

theorem gap_pairwise (l : List Int)
    (hc : List.Chain' (fun x y => x + RATE_LIMIT_WINDOW_SHORT < y) l) :
    List.Pairwise (fun x y => x + RATE_LIMIT_WINDOW_SHORT < y) l := by
  cases l with
  | nil => exact List.Pairwise.nil
  | cons a l => exact gap_chain_pairwise a l hc

theorem admits_aux (rest : List Int) :
    ∀ (done h : List Int), h.Sublist done →
    (done ++ rest).Pairwise (fun x y => x + RATE_LIMIT_WINDOW_SHORT < y) →
    (∀ x : Int, (done ++ rest).countP (windowPred x) ≤ RATE_LIMIT_MAX_LONG) →
    (runFrom h rest).1 = List.replicate rest.length true := by
  induction rest with
  | nil => intro done h _ _ _; rfl
  | cons u rest ih =>
    intro done h hsub hpw hcount
    rcases List.pairwise_append.mp hpw with ⟨hpd, hpr, hcross⟩
    have hshort : ((prune u h).filter fun t =>
        decide (u - t ≤ RATE_LIMIT_WINDOW_SHORT)).length = 0 := by
      rw [List.length_eq_zero, List.filter_eq_nil_iff]
      intro a ha
      have h2 : a ∈ done := hsub.subset (mem_prune.mp ha).1
      have h3 := hcross a h2 u (List.mem_cons_self u rest)
      simp only [decide_eq_true_eq]
      omega
    have hlongmem : ∀ a ∈ prune u h, windowPred (u - RATE_LIMIT_WINDOW_LONG) a = true := by
      intro a ha
      have h1 := (mem_prune.mp ha).2
      have h2 : a ∈ done := hsub.subset (mem_prune.mp ha).1
      have h3 := hcross a h2 u (List.mem_cons_self u rest)
      simp only [windowPred, decide_eq_true_eq]
      simp only [RATE_LIMIT_WINDOW_SHORT] at h3
      constructor <;> omega
    have hcnt : (prune u h).length ≤ 4 := by
      have hs1 : (prune u h).Sublist done := (prune_sublist u h).trans hsub
      have e1 : (prune u h).countP (windowPred (u - RATE_LIMIT_WINDOW_LONG))
          = (prune u h).length := List.countP_eq_length.mpr hlongmem
      have e2 := hs1.countP_le (windowPred (u - RATE_LIMIT_WINDOW_LONG))
      have e3 := hcount (u - RATE_LIMIT_WINDOW_LONG)
      rw [List.countP_append] at e3
      have hu : windowPred (u - RATE_LIMIT_WINDOW_LONG) u = true := by
        simp only [windowPred, decide_eq_true_eq]
        simp only [RATE_LIMIT_WINDOW_LONG]
        omega
      have e4 : (u :: rest).countP (windowPred (u - RATE_LIMIT_WINDOW_LONG))
          = rest.countP (windowPred (u - RATE_LIMIT_WINDOW_LONG)) + 1 :=
        List.countP_cons_of_pos _ _ hu
      simp only [RATE_LIMIT_MAX_LONG] at e3
      omega
    have hadm : check_rate_limit u h = (true, prune u h ++ [u]) := by
      apply check_rate_limit_accepts
      intro hcon
      rcases hcon with h1 | h1
      · omega
      · omega
    rw [runFrom_cons, hadm]
    simp only [List.length_cons, List.replicate_succ]
    have hrec := ih (done ++ [u]) (prune u h ++ [u])
      (((prune_sublist u h).trans hsub).append (List.Sublist.refl [u]))
      (by rw [List.append_assoc, List.singleton_append]; exact hpw)
      (by intro x; rw [List.append_assoc, List.singleton_append]; exact hcount x)
    simp only [hrec]

/-- C7 (confirmed): a client that issues every request strictly more than
15 seconds after its previous one and never has more than 5 requests in any
rolling 5-minute window is admitted on every request. -/
theorem claim_C7_all_admitted :
    ∀ ts : List Int,
      List.Chain' (fun x y => x + RATE_LIMIT_WINDOW_SHORT < y) ts →
      (∀ x : Int, ts.countP (windowPred x) ≤ RATE_LIMIT_MAX_LONG) →
      (runFrom [] ts).1 = List.replicate ts.length true := by
  intro ts hc hw
  exact admits_aux ts [] [] (List.Sublist.refl [])
    (by simpa using gap_pairwise ts hc) (by simpa using hw)

/-- Witness for claim C7: two requests 16 seconds apart are both admitted. -/
theorem claim_C7_witness :
    (runFrom [] [0, 16000000]).1 = List.replicate 2 true := by
  apply claim_C7_all_admitted
  · simp only [List.chain'_cons, List.chain'_singleton, and_true, RATE_LIMIT_WINDOW_SHORT]
    norm_num
  · intro x
    exact le_trans (List.countP_le_length _) (by decide)

theorem check_mem_window (now : Int) (h : List Int) :
    ∀ t ∈ (check_rate_limit now h).2, now - t ≤ RATE_LIMIT_WINDOW_LONG := by
  intro t ht
  rcases check_rate_limit_cases now h with ⟨_, he⟩ | ⟨_, he⟩ <;> rw [he] at ht
  · exact (mem_prune.mp ht).2
  · rcases List.mem_append.mp ht with h1 | h1
    · exact (mem_prune.mp h1).2
    · rw [List.mem_singleton] at h1
      subst h1
      simp only [RATE_LIMIT_WINDOW_LONG]
      omega

theorem check_len (now : Int) (h : List Int) (hl : h.length ≤ 5) :
    (check_rate_limit now h).2.length ≤ 5 := by
  rcases check_rate_limit_cases now h with ⟨_, he⟩ | ⟨hc, he⟩ <;> rw [he]
  · exact le_trans (prune_sublist now h).length_le hl
  · rw [List.length_append, List.length_singleton]
    omega

theorem runFrom_len (ts : List Int) : ∀ h : List Int, h.length ≤ 5 →
    (runFrom h ts).2.length ≤ 5 := by
  induction ts with
  | nil => intro h hl; exact hl
  | cons t ts ih =>
    intro h hl
    rw [runFrom_cons]
    exact ih _ (check_len t h hl)

/-- C8 (confirmed): after every call — the last call of any trace of the
client starting from the empty history, admitted or rejected — every
persisted timestamp of that client is within the long window of that call's
now, and the persisted list never holds more than RATE_LIMIT_MAX_LONG
entries. -/
theorem claim_C8_state_invariant :
    ∀ (ts : List Int) (now : Int),
      (∀ t ∈ (runFrom [] (ts ++ [now])).2, now - t ≤ RATE_LIMIT_WINDOW_LONG)
      ∧ (runFrom [] (ts ++ [now])).2.length ≤ RATE_LIMIT_MAX_LONG := by
  intro ts now
  have he : (runFrom [] (ts ++ [now])).2 = (check_rate_limit now (runFrom [] ts).2).2 := by
    rw [runFrom_append, runFrom_singleton]
  constructor
  · intro t ht
    rw [he] at ht
    exact check_mem_window now _ t ht
  · rw [he]
    have hlen := runFrom_len ts [] (by simp)
    have := check_len now _ hlen
    simpa [RATE_LIMIT_MAX_LONG] using this

/-- Witness for claim C8: after the trace with calls at 0 and 5 (second
call rejected), the stored timestamp 0 is within the long window of the
last call's now, and the stored list is within the bound. -/
theorem claim_C8_witness :
    ((5 : Int) - 0 ≤ RATE_LIMIT_WINDOW_LONG)
    ∧ (runFrom [] ([0] ++ [5])).2.length ≤ RATE_LIMIT_MAX_LONG :=
  ⟨(claim_C8_state_invariant [0] 5).1 0 (by decide),
   (claim_C8_state_invariant [0] 5).2⟩

/-- C3 (confirmed): the future check is strict — it passes exactly when the
combined instant is strictly later than the current instant, and fails with
PastDateTime exactly when the combined instant is earlier than or equal to
the current instant. -/
theorem claim_C3_strict_future :
    ∀ (m : AppointmentModel) (now : Int),
      (validate_future m now = .ok () ↔ now < combined_datetime m)
      ∧ (validate_future m now = .error .PastDateTime ↔ combined_datetime m ≤ now) := by
  intro m now
  unfold validate_future
  split
  next hc =>
    exact ⟨⟨fun h => by simp at h, fun h => absurd hc (by omega)⟩,
           ⟨fun _ => hc, fun _ => rfl⟩⟩
  next hc =>
    exact ⟨⟨fun _ => by omega, fun _ => rfl⟩,
           ⟨fun h => by simp at h, fun h => absurd h hc⟩⟩

/-- C9 (confirmed): the captcha check succeeds iff the two addends sum
exactly to the claimed result, and fails with CaptchaFailed otherwise;
(2, 3, 5) passes and (2, 3, 6) fails. -/
theorem claim_C9_captcha :
    (∀ a b r : Int, (validate_captcha a b r = .ok () ↔ a + b = r)
      ∧ (validate_captcha a b r = .error .CaptchaFailed ↔ a + b ≠ r))
    ∧ validate_captcha 2 3 5 = .ok ()
    ∧ validate_captcha 2 3 6 = .error .CaptchaFailed := by
  refine ⟨?_, by decide, by decide⟩
  intro a b r
  unfold validate_captcha
  split
  next hc =>
    exact ⟨⟨fun h => by simp at h, fun h => absurd h hc⟩,
           ⟨fun _ => hc, fun _ => rfl⟩⟩
  next hc =>
    exact ⟨⟨fun _ => by omega, fun _ => rfl⟩,
           ⟨fun h => by simp at h, fun h => absurd h (by omega)⟩⟩

/-- C5 counterexample: the one-letter name " A " surrounded by spaces has
raw length 3, so Field(min_length=2) accepts it, although its trimmed
length is 1 — the claim predicts rejection. -/
theorem claim_C5_counterexample :
    checkName (some " A ") = .ok " A " ∧ (pyStrip " A ").length = 1 :=
  ⟨by decide, by decide⟩

/-- C5 (amended): the full-name check succeeds iff the raw string has at
least 2 characters; no trimming is applied before the length test, so a
one-letter name padded with whitespace is accepted. -/
theorem claim_C5_name_length :
    ∀ s : String, (checkName (some s) = .ok s ↔ 2 ≤ s.length)
      ∧ (checkName (some s) = .error .InvalidName ↔ s.length < 2) := by
  intro s
  show ((if 2 ≤ s.length then (Except.ok s : Except VErr String)
          else .error .InvalidName) = .ok s ↔ 2 ≤ s.length)
    ∧ ((if 2 ≤ s.length then (Except.ok s : Except VErr String)
          else .error .InvalidName) = .error .InvalidName ↔ s.length < 2)
  split
  next hc =>
    exact ⟨⟨fun _ => hc, fun _ => rfl⟩,
           ⟨fun h => by simp at h, fun h => absurd hc (by omega)⟩⟩
  next hc =>
    exact ⟨⟨fun h => by simp at h, fun h => absurd h hc⟩,
           ⟨fun _ => by omega, fun _ => rfl⟩⟩

/-- C6 counterexample: on the input with an internal tab the claim's
normalization (strip internal whitespace) yields ten digits, which match
the pattern, yet the code rejects the input — str.replace removes only
space characters, so the tab survives and the regex fails. -/
theorem claim_C6_counterexample :
    validate_phone "07\t12345678" = .error .InvalidPhone
    ∧ phoneMatches (specStripAllWhitespace "07\t12345678") = true :=
  ⟨by decide, by decide⟩

/-- C6 (amended): the phone check normalizes by Python strip (trimming
outer whitespace) followed by removal of all space characters (U+0020
only; other internal whitespace survives); it succeeds, retaining the
normalized value, iff the normalized string is an optional leading plus
followed by 8 to 15 digits and nothing else.  The three spec examples
behave as stated. -/
theorem claim_C6_phone :
    (∀ s : String,
      (validate_phone s = .ok (removeSpaces (pyStrip s)) ↔
        phoneMatches (removeSpaces (pyStrip s)) = true)
      ∧ (validate_phone s = .error .InvalidPhone ↔
        phoneMatches (removeSpaces (pyStrip s)) = false))
    ∧ validate_phone "+40712345678" = .ok "+40712345678"
    ∧ validate_phone "123" = .error .InvalidPhone
    ∧ validate_phone "0712-345-678" = .error .InvalidPhone := by
  refine ⟨?_, by decide, by decide, by decide⟩
  intro s
  unfold validate_phone
  split
  next hc =>
    exact ⟨⟨fun _ => hc, fun _ => rfl⟩,
           ⟨fun h => by simp at h, fun h => by rw [hc] at h; simp at h⟩⟩
  next hc =>
    exact ⟨⟨fun h => by simp at h, fun h => absurd h hc⟩,
           ⟨fun _ => by simpa using hc, fun _ => rfl⟩⟩

theorem collect_errsAcc {α β : Type} (acc : Except (List VErr) (α → β))
    (r : Except VErr α) :
    errsAcc (collect acc r) = errsAcc acc ++ errsOf r := by
  cases acc <;> cases r <;> simp [collect, errsAcc, errsOf]

theorem collect_good {α β : Type} (acc : Except (List VErr) (α → β))
    (r : Except VErr α) (hg : ∀ es, acc = .error es → es ≠ []) :
    ∀ es, collect acc r = .error es → es ≠ [] := by
  intro es he
  cases acc with
  | ok f =>
    cases r with
    | ok a => simp [collect] at he
    | error e =>
      simp [collect] at he
      simp [← he]
  | error es2 =>
    cases r with
    | ok a =>
      simp [collect] at he
      rw [← he]
      exact hg es2 rfl
    | error e =>
      simp [collect] at he
      simp [← he]

theorem modelValidate_errsAcc (p : RawPayload) :
    errsAcc (modelValidate p) = fieldErrors p := by
  unfold modelValidate fieldErrors
  simp only [collect_errsAcc]
  simp [errsAcc, errsOf, List.append_assoc]

theorem modelValidate_good (p : RawPayload) :
    ∀ es, modelValidate p = .error es → es ≠ [] := by
  unfold modelValidate
  apply collect_good
  apply collect_good
  apply collect_good
  apply collect_good
  apply collect_good
  apply collect_good
  apply collect_good
  apply collect_good
  apply collect_good
  apply collect_good
  intro es he
  simp at he

theorem modelValidate_spec (p : RawPayload) :
    (fieldErrors p = [] → ∃ m, modelValidate p = .ok m)
    ∧ (fieldErrors p ≠ [] → modelValidate p = .error (fieldErrors p)) := by
  have he := modelValidate_errsAcc p
  cases hm : modelValidate p with
  | ok m =>
    rw [hm] at he
    simp only [errsAcc] at he
    exact ⟨fun _ => ⟨m, rfl⟩, fun hne => absurd he.symm hne⟩
  | error es =>
    rw [hm] at he
    simp only [errsAcc] at he
    constructor
    · intro h0
      rw [← he] at h0
      exact absurd h0 (modelValidate_good p es hm)
    · intro _
      rw [← he]

/-- C4 (amended): pydantic checks every field independently and aggregates
all field-level failures (a missing required field counting as that field's
failure) in field-declaration order, rather than stopping at the first;
only the two cross-field checks, which run when every field check passes,
stop at the first failure, PastDateTime before CaptchaFailed, and report
exactly one error. -/
theorem claim_C4_error_reporting :
    ∀ (p : RawPayload) (now : Int),
      (fieldErrors p ≠ [] → processAppointment p now = .error (fieldErrors p))
      ∧ (fieldErrors p = [] → ∃ m, modelValidate p = .ok m
          ∧ (combined_datetime m ≤ now →
              processAppointment p now = .error [.PastDateTime])
          ∧ (now < combined_datetime m →
              m.captcha_a + m.captcha_b ≠ m.captcha_result →
              processAppointment p now = .error [.CaptchaFailed])
          ∧ (now < combined_datetime m →
              m.captcha_a + m.captcha_b = m.captcha_result →
              processAppointment p now = .ok m)) := by
  intro p now
  constructor
  · intro hne
    have hm := (modelValidate_spec p).2 hne
    unfold processAppointment
    rw [hm]
  · intro h0
    obtain ⟨m, hm⟩ := (modelValidate_spec p).1 h0
    refine ⟨m, hm, ?_, ?_, ?_⟩
    · intro hle
      have hvf : validate_future m now = .error .PastDateTime := by
        unfold validate_future
        rw [if_pos hle]
      simp [processAppointment, hm, hvf]
    · intro hlt hne
      have hvf : validate_future m now = .ok () := by
        unfold validate_future
        rw [if_neg (by omega)]
      have hvc : validate_captcha m.captcha_a m.captcha_b m.captcha_result
          = .error .CaptchaFailed := by
        unfold validate_captcha
        rw [if_pos hne]
      simp [processAppointment, hm, hvf, hvc]
    · intro hlt heq
      have hvf : validate_future m now = .ok () := by
        unfold validate_future
        rw [if_neg (by omega)]
      have hvc : validate_captcha m.captcha_a m.captcha_b m.captcha_result
          = .ok () := by
        unfold validate_captcha
        rw [if_neg (by omega)]
      simp [processAppointment, hm, hvf, hvc]

/-- C4 counterexample: a payload whose full_name is too short and whose
phone is structurally missing is answered with both failures, in field
order — two reported errors, with the structural missing-field failure
after the name failure, contradicting single-first-error reporting. -/
theorem claim_C4_counterexample :
    processAppointment twoBadFieldsPayload 0
        = .error [.InvalidName, .MissingField "phone"]
    ∧ 2 ≤ (fieldErrors twoBadFieldsPayload).length :=
  ⟨by decide, by decide⟩

/-- Witness for claim C4: the two-bad-fields payload is answered with its
aggregated field errors, and the fully valid payload passes end to end. -/
theorem claim_C4_witness :
    processAppointment twoBadFieldsPayload 0 = .error (fieldErrors twoBadFieldsPayload)
    ∧ processAppointment validPayload 0 = .ok validModel := by
  constructor
  · exact (claim_C4_error_reporting twoBadFieldsPayload 0).1 (by decide)
  · obtain ⟨m, hm, _, _, hok⟩ := (claim_C4_error_reporting validPayload 0).2 (by decide)
    have hv : modelValidate validPayload = .ok validModel := by decide
    rw [hm] at hv
    injection hv with hmv
    subst hmv
    exact hok (by decide) (by decide)
